import Mathlib

/-!
# Permission-group reconciler and cloud-accounts data source

A shallow embedding of `prismacloud/resource_permission_group.go` and
`prismacloud/data_source_cloud_accounts.go`.

* Go `interface{}` values handed around by the plugin SDK are the type `Value`.
* A failed Go type assertion, an out-of-range index and `panic(err)` are the
  `Except.error` branch of `Except Panic _`.
* The remote API is a record of state-passing functions (`Client σ`): every call
  receives the remote state and returns the answer together with the next state,
  so that a remote whose answers change between two polls is expressible.
-/

set_option autoImplicit false

namespace prismacloud

/-! ## Dynamic values -/

/-- The Go `interface{}` values that occur in an attribute tree. -/
inductive Value where
  | nil
  | str (s : String)
  | int (n : Int)
  | bool (b : Bool)
  | list (xs : List Value)
  | map (kv : List (String × Value))

instance : Inhabited Value := ⟨Value.nil⟩

/-- The message of a Go run-time panic. -/
abbrev Panic := String

/-- The type assertion `v.(string)`. -/
def Value.assertString : Value → Except Panic String
  | .str s => .ok s
  | _ => .error "interface conversion: interface {} is not string"

/-- The type assertion `v.([]interface{})`. -/
def Value.assertList : Value → Except Panic (List Value)
  | .list xs => .ok xs
  | _ => .error "interface conversion: interface {} is not []interface {}"

/-- The type assertion `v.(map[string]interface{})`. -/
def Value.assertMap : Value → Except Panic (List (String × Value))
  | .map kv => .ok kv
  | _ => .error "interface conversion: interface {} is not map[string]interface {}"

/-- First binding of a key in an association list. -/
def assocLookup (k : String) : List (String × Value) → Option Value
  | [] => none
  | (k', v) :: rest => if k' = k then some v else assocLookup k rest

/-- The Go map index `m[k]`: the nil interface when the key is absent. -/
def mapIndex (m : List (String × Value)) (k : String) : Value :=
  (assocLookup k m).getD Value.nil

/-- The Go slice index `xs[0]`, which panics on an empty slice. -/
def index0 : List Value → Except Panic Value
  | [] => .error "index out of range [0] with length 0"
  | x :: _ => .ok x

/-! ## The plugin SDK's resource data -/

/-- The primitive schema types used by the two resources. -/
inductive PrimType where
  | TypeString
  | TypeInt
  | TypeBool
  deriving DecidableEq

/-- The string read for a stored value: the string itself, and the zero value
when no string is set. -/
def stringOf : Option Value → String
  | some (.str s) => s
  | _ => ""

/-- The integer read for a stored value, zero when none is set. -/
def intOf : Option Value → Int
  | some (.int n) => n
  | _ => 0

/-- The boolean read for a stored value, false when none is set. -/
def boolOf : Option Value → Bool
  | some (.bool b) => b
  | _ => false

/-- Reading a primitive attribute or field: the result always has the schema
type. It is the value that is set, and the zero value of the type when no value
of that type is set. -/
def PrimType.read : PrimType → Option Value → Value
  | .TypeString, v => .str (stringOf v)
  | .TypeInt, v => .int (intOf v)
  | .TypeBool, v => .bool (boolOf v)

/-- The entries of a record; a value that is not a record has none. -/
def Value.fields : Value → List (String × Value)
  | .map kv => kv
  | _ => []

/-- The schema of an innermost nested block: field names with primitive types. -/
abbrev LeafSchema := List (String × PrimType)

/-- Reading one innermost block: the record has every field of the block's
schema, the unset ones with their zero value. -/
def LeafSchema.readRecord (sch : LeafSchema) (v : Value) : Value :=
  .map (sch.map fun p => (p.1, p.2.read (assocLookup p.1 v.fields)))

/-- The type of a field of a nested block: a primitive, or a list of innermost
blocks. -/
inductive FieldType where
  | prim (t : PrimType)
  | TypeList (elem : LeafSchema)

/-- Reading a field of a nested block; an unset list reads as the empty list. -/
def FieldType.read : FieldType → Option Value → Value
  | .prim t, v => t.read v
  | .TypeList elem, some (.list xs) => .list (xs.map elem.readRecord)
  | .TypeList _, _ => .list []

/-- The schema of a nested block (the `Elem` of a top-level list). -/
abbrev ElemSchema := List (String × FieldType)

/-- Reading one nested block: the record has every field of the block's schema,
the unset ones with their zero value. -/
def ElemSchema.readRecord (sch : ElemSchema) (v : Value) : Value :=
  .map (sch.map fun p => (p.1, p.2.read (assocLookup p.1 v.fields)))

/-- The type of a top-level attribute: a primitive, or a list of nested blocks. -/
inductive ValueType where
  | prim (t : PrimType)
  | TypeList (elem : ElemSchema)

/-- Reading a top-level attribute; an unset list reads as the empty list. -/
def ValueType.read : ValueType → Option Value → Value
  | .prim t, v => t.read v
  | .TypeList elem, some (.list xs) => .list (xs.map elem.readRecord)
  | .TypeList _, _ => .list []

/-- Whether a value has the kind of a schema type (the check `d.Set` performs
before it stores a value). -/
def ValueType.accepts : ValueType → Value → Bool
  | .prim .TypeString, .str _ => true
  | .prim .TypeInt, .int _ => true
  | .prim .TypeBool, .bool _ => true
  | .TypeList _, .list _ => true
  | _, _ => false

/-- A resource schema: the top-level attribute names with their types. -/
abbrev Schema := List (String × ValueType)

/-- Type of an attribute in a schema. -/
def Schema.typeOf (sch : Schema) (k : String) : Option ValueType :=
  match sch.find? (fun p => p.1 == k) with
  | some p => some p.2
  | none => none

/-- The `schema.ResourceData` of a resource with schema `sch`: the identifier
(`d.Id()`) and what is set for the attributes (configuration, prior state and
earlier `d.Set` calls, the latest first). -/
structure ResourceData (sch : Schema) where
  id : String
  attrs : List (String × Value)

namespace ResourceData

variable {sch : Schema}

/-- The call `d.Id()`. -/
def Id (d : ResourceData sch) : String := d.id

/-- The call `d.SetId(v)`. -/
def SetId (d : ResourceData sch) (v : String) : ResourceData sch :=
  { d with id := v }

/-- The call `d.Get(key)`: what is set for the attribute, read through the
schema. A primitive always comes back with its schema type, and every record of
a nested list comes back with all the fields of its block, the unset ones filled
with their zero value. -/
def Get (d : ResourceData sch) (key : String) : Value :=
  match sch.typeOf key with
  | some t => t.read (assocLookup key d.attrs)
  | none => Value.nil

/-- The call `d.Set(key, v)` with its error result dropped, as every caller in
the two files does: the value is stored when the schema has the attribute and the
value has its kind, and the data is left as it was otherwise. -/
def Set (d : ResourceData sch) (key : String) (v : Value) : ResourceData sch :=
  match sch.typeOf key with
  | some t => if t.accepts v then { d with attrs := (key, v) :: d.attrs } else d
  | none => d

end ResourceData

/-! ## Entities of the client library -/

namespace permission_group

/-- The `permission_group.Operations` record. -/
structure Operations where
  CREATE : Bool
  READ : Bool
  UPDATE : Bool
  DELETE : Bool
  deriving DecidableEq, Repr

/-- The `permission_group.Features` record. -/
structure Features where
  FeatureName : String
  Operations : Operations
  deriving DecidableEq, Repr

/-- The `permission_group.PermissionGroup` entity, with the fields the resource
reads or writes (`Type_` is the Go field `Type`). `AssociatedRoles` is kept as
the dynamic value that is handed to `d.Set`. -/
structure PermissionGroup where
  Id : String := ""
  Name : String := ""
  Description : String := ""
  Type_ : String := ""
  LastModifiedBy : String := ""
  LastModifiedTs : Int := 0
  AssociatedRoles : Value := Value.list []
  AcceptAccountGroups : Bool := false
  AcceptResourceLists : Bool := false
  AcceptCodeRepositories : Bool := false
  Custom : Bool := false
  Features : List Features := []

end permission_group

open permission_group

/-! ## mapstructure.Decode into `Operations` -/

namespace mapstructure

/-- The comparison `strings.EqualFold` on the letters A to Z: equality up to
case. -/
def equalFold (a b : String) : Bool :=
  a.data.map Char.toLower == b.data.map Char.toLower

/-- The value mapstructure finds for a struct field: the key spelled exactly
like the field when there is one, else the first key equal to it up to case. -/
def fieldValue (field : String) (m : List (String × Value)) : Option Value :=
  match assocLookup field m with
  | some v => some v
  | none =>
    match m.find? (fun p => equalFold p.1 field) with
    | some p => some p.2
    | none => none

/-- Decoding of one `bool` field: an absent key or a nil value leaves the field
at its zero value, a bool is taken over, anything else is a decode error. -/
def decodeBool (field : String) (m : List (String × Value)) : Except String Bool :=
  match fieldValue field m with
  | none => .ok false
  | some .nil => .ok false
  | some (.bool b) => .ok b
  | some _ => .error (field ++ " expected type bool")

/-- The call `mapstructure.Decode(input, &md)` for a zero-valued
`md : Operations`: nil input decodes to the zero record, a map is decoded field
by field, any other input is an error. -/
def Decode : Value → Except String Operations
  | .nil => .ok { CREATE := false, READ := false, UPDATE := false, DELETE := false }
  | .map m =>
    match decodeBool "CREATE" m, decodeBool "READ" m, decodeBool "UPDATE" m,
        decodeBool "DELETE" m with
    | .ok c, .ok r, .ok u, .ok dl => .ok { CREATE := c, READ := r, UPDATE := u, DELETE := dl }
    | _, _, _, _ => .error "error(s) decoding"
  | _ => .error "expected a map"

end mapstructure

/-! ## The state translator -/

/-- The block schema of `features.operations`: four optional flags. -/
def operationsElem : LeafSchema :=
  [ ("create", .TypeBool), ("read", .TypeBool), ("update", .TypeBool), ("delete", .TypeBool) ]

/-- The block schema of `features`. -/
def featuresElem : ElemSchema :=
  [ ("feature_name", .prim .TypeString), ("operations", .TypeList operationsElem) ]

/-- The block schema of `associated_roles`. -/
def associatedRolesElem : ElemSchema :=
  [ ("role_id", .prim .TypeString), ("name", .prim .TypeString) ]

/-- The schema declared by `resourcePermissionGroup`. -/
def resourcePermissionGroup : Schema :=
  [ ("name", .prim .TypeString),
    ("description", .prim .TypeString),
    ("permission_group_type", .prim .TypeString),
    ("last_modified_by", .prim .TypeString),
    ("last_modified_ts", .prim .TypeInt),
    ("associated_roles", .TypeList associatedRolesElem),
    ("features", .TypeList featuresElem),
    ("accept_account_groups", .prim .TypeBool),
    ("accept_resource_lists", .prim .TypeBool),
    ("accept_code_repositories", .prim .TypeBool),
    ("custom", .prim .TypeBool),
    ("id", .prim .TypeString) ]

/-- The persisted state of a permission group. -/
abbrev PGData := ResourceData resourcePermissionGroup

/-- One iteration of the loop of `parsePermissionGroup`. -/
def parseFeature (fe : Value) : Except Panic Features := do
  let cl ← fe.assertMap
  let ops ← (mapIndex cl "operations").assertList
  let first ← index0 ops
  match mapstructure.Decode first with
  | .error err => .error err
  | .ok md =>
    let featureName ← (mapIndex cl "feature_name").assertString
    pure { FeatureName := featureName, Operations := md }

/-- The loop of `parsePermissionGroup` over the `features` list, in order,
stopping at the first panic. -/
def parseFeatures : List Value → Except Panic (List Features)
  | [] => .ok []
  | fe :: rest =>
    match parseFeature fe with
    | .error e => .error e
    | .ok f =>
      match parseFeatures rest with
      | .error e => .error e
      | .ok fs => .ok (f :: fs)

/-- Translation of the desired state into the entity. -/
def parsePermissionGroup (d : PGData) : Except Panic PermissionGroup := do
  let name ← (d.Get "name").assertString
  let description ← (d.Get "description").assertString
  let cld ← (d.Get "features").assertList
  let features ← parseFeatures cld
  pure { Name := name, Description := description, Features := features }

/-- The list `feat` that `savePermissionGroup` builds from the entity's features. -/
def featureRecords (fs : List Features) : List Value :=
  fs.map fun fe =>
    Value.map
      [ ("feature_name", .str fe.FeatureName),
        ("operations",
          .map [ ("create", .bool fe.Operations.CREATE), ("read", .bool fe.Operations.READ),
                 ("update", .bool fe.Operations.UPDATE), ("delete", .bool fe.Operations.DELETE) ]) ]

/-- Translation of the entity into the persisted state. The list `feat` is built
and the function ends without storing it. -/
def savePermissionGroup (d : PGData) (obj : PermissionGroup) : PGData :=
  let d := d.Set "name" (.str obj.Name)
  let d := d.Set "description" (.str obj.Description)
  let d := d.Set "last_modified_by" (.str obj.LastModifiedBy)
  let d := d.Set "last_modified_ts" (.int obj.LastModifiedTs)
  let d := d.Set "permission_group_type" (.str obj.Type_)
  let d := d.Set "accept_account_groups" (.bool obj.AcceptAccountGroups)
  let d := d.Set "accept_resource_lists" (.bool obj.AcceptResourceLists)
  let d := d.Set "associated_roles" obj.AssociatedRoles
  let d := d.Set "accept_code_repositories" (.bool obj.AcceptCodeRepositories)
  let d := d.Set "custom" (.bool obj.Custom)
  let _feat := featureRecords obj.Features
  d

/-! ## Errors, diagnostics, the remote client -/

/-- A non-nil Go `error`. The two sentinels of the client library are compared
by identity (`err == pc.ObjectNotFoundError`), so an error built elsewhere is a
different value whatever its text. -/
inductive Error where
  | InvalidPermissionGroupIdError
  | ObjectNotFoundError
  | other (text : String)
  deriving DecidableEq, Repr

/-- The method `err.Error()`: the text of an error. The texts of the two
sentinels are declared in the client library; the ones here stand for them and
no statement below depends on their wording. -/
def Error.text : Error → String
  | .InvalidPermissionGroupIdError => "invalid permission group id"
  | .ObjectNotFoundError => "object not found"
  | .other text => text

namespace diag

/-- Severity of a diagnostic. -/
inductive Severity where
  | Error
  | Warning
  deriving DecidableEq, Repr

/-- One diagnostic. -/
structure Diagnostic where
  Severity : Severity
  Summary : String
  deriving DecidableEq, Repr

/-- The value `diag.Diagnostics`; the Go `nil` is the empty list. -/
abbrev Diagnostics := List Diagnostic

/-- The call `diag.FromErr(err)` on a non-nil error. -/
def FromErr (err : Error) : Diagnostics :=
  [{ Severity := .Error, Summary := err.text }]

/-- The method `HasError`: some diagnostic is fatal. -/
def HasError (ds : Diagnostics) : Bool :=
  ds.any fun x => x.Severity == .Error

end diag

open diag

/-- The summary record of a cloud account returned by `account.Names`. -/
structure AccountSummary where
  Name : String
  CloudType : String
  AccountId : String
  deriving DecidableEq, Repr

/-- The typed operations of the remote resource client over a remote state `σ`.
A Go result `error` is `Option Error` (`none` for nil), a result `(x, error)` is
`Except Error _`. -/
structure Client (σ : Type) where
  Create : PermissionGroup → σ → Option Error × σ
  Get : String → σ → Except Error PermissionGroup × σ
  Update : PermissionGroup → σ → Option Error × σ
  Delete : String → σ → Option Error × σ
  Identify : String → σ → Except Error String × σ
  Names : σ → Except Error (List AccountSummary) × σ

/-- The Go idiom `_, err := f()`: keep the error, drop the value. -/
def errOf {α : Type} : Except Error α → Option Error
  | .ok _ => none
  | .error e => some e

/-! ## The eventual-consistency poller -/

/-- Modelled from the spec: `PollApiUntilSuccess` is called by
`createPermissionGroup` and defined in a file of the package that is not among
the sources. The probe is invoked repeatedly; the poller returns success as soon
as the probe returns nil, retries while it returns an error, and after
`maxRetries` retries surfaces the last error as the timeout failure. -/
def PollApiUntilSuccess {σ : Type} (probe : σ → Option Error × σ) :
    Nat → σ → Option Error × σ
  | 0, s => probe s
  | maxRetries + 1, s =>
    match probe s with
    | (none, s') => (none, s')
    | (some _, s') => PollApiUntilSuccess probe maxRetries s'

/-! ## The resource reconciler -/

/-- The probe of the first poll of `createPermissionGroup`:
`_, err := permission_group.Identify(client, obj.Name); return err`. -/
def identifyProbe {σ : Type} (client : Client σ) (name : String) (t : σ) : Option Error × σ :=
  let r := client.Identify name t
  (errOf r.1, r.2)

/-- The probe of the second poll of `createPermissionGroup`:
`_, err := permission_group.Get(client, id); return err`. -/
def getProbe {σ : Type} (client : Client σ) (id : String) (t : σ) : Option Error × σ :=
  let r := client.Get id t
  (errOf r.1, r.2)

/-- What a lifecycle operation leaves behind: the diagnostics it returns, the
resource data and the remote state. -/
structure Outcome (σ : Type) where
  diags : Diagnostics
  d : PGData
  remote : σ

/-- The lifecycle operation Read. -/
def readPermissionGroup {σ : Type} (client : Client σ) (d : PGData) (s : σ) : Outcome σ :=
  let id := d.Id
  match client.Get id s with
  | (.error err, s') =>
    if err = Error.InvalidPermissionGroupIdError then
      { diags := [], d := d.SetId "", remote := s' }
    else
      { diags := FromErr err, d := d, remote := s' }
  | (.ok obj, s') =>
    { diags := [], d := savePermissionGroup d obj, remote := s' }

/-- The lifecycle operation Create. Both polls are statements: whatever the
poller reports is dropped and only the remote state moves on. -/
def createPermissionGroup {σ : Type} (maxRetries : Nat) (client : Client σ) (d : PGData)
    (s : σ) : Except Panic (Outcome σ) :=
  match parsePermissionGroup d with
  | .error p => .error p
  | .ok obj =>
    match client.Create obj s with
    | (some err, s1) => .ok { diags := FromErr err, d := d, remote := s1 }
    | (none, s1) =>
      let s2 := (PollApiUntilSuccess (identifyProbe client obj.Name) maxRetries s1).2
      match client.Identify obj.Name s2 with
      | (.error err, s3) => .ok { diags := FromErr err, d := d, remote := s3 }
      | (.ok id, s3) =>
        let s4 := (PollApiUntilSuccess (getProbe client id) maxRetries s3).2
        let d := d.SetId id
        .ok (readPermissionGroup client d s4)

/-- The lifecycle operation Update. -/
def updatePermissionGroup {σ : Type} (client : Client σ) (d : PGData) (s : σ) :
    Except Panic (Outcome σ) :=
  match parsePermissionGroup d with
  | .error p => .error p
  | .ok obj =>
    let obj := { obj with Id := d.Id }
    match client.Update obj s with
    | (some err, s1) => .ok { diags := FromErr err, d := d, remote := s1 }
    | (none, s1) => .ok (readPermissionGroup client d s1)

/-- The lifecycle operation Delete. -/
def deletePermissionGroup {σ : Type} (client : Client σ) (d : PGData) (s : σ) : Outcome σ :=
  let id := d.Id
  match client.Delete id s with
  | (some err, s') =>
    if err ≠ Error.ObjectNotFoundError then
      { diags := FromErr err, d := d, remote := s' }
    else
      { diags := [], d := d.SetId "", remote := s' }
  | (none, s') => { diags := [], d := d.SetId "", remote := s' }

/-! ## The list accessor -/

/-- The block schema of `accounts`. -/
def accountsElem : ElemSchema :=
  [ ("name", .prim .TypeString),
    ("cloud_type", .prim .TypeString),
    ("account_id", .prim .TypeString) ]

/-- The schema declared by `dataSourceCloudAccounts`. -/
def dataSourceCloudAccounts : Schema :=
  [ ("accounts", .TypeList accountsElem) ]

/-- What the data-source read leaves behind: the returned error, the resource
data and the remote state. -/
structure ReadResult (σ : Type) where
  err : Option Error
  d : ResourceData dataSourceCloudAccounts
  remote : σ

/-- The data-source read: the summaries of `account.Names`, in the order
received, stored as the list `accounts`. -/
def dataSourceCloudAccountsRead {σ : Type} (client : Client σ)
    (d : ResourceData dataSourceCloudAccounts) (s : σ) : ReadResult σ :=
  match client.Names s with
  | (.error err, s') => { err := some err, d := d, remote := s' }
  | (.ok items, s') =>
    let d := d.SetId "cloud_accounts"
    let list := items.map fun i =>
      Value.map
        [ ("name", .str i.Name),
          ("cloud_type", .str i.CloudType),
          ("account_id", .str i.AccountId) ]
    let d := d.Set "accounts" (.list list)
    { err := none, d := d, remote := s' }

/-! ## Remotes used to instantiate the statements -/

/-- An in-memory remote: the state is the list of stored permission groups.
Create assigns the identifier `pg-` followed by the name; an unknown identifier
is the invalid-id error on Get and the object-not-found error on Update and
Delete. -/
def memClient : Client (List PermissionGroup) where
  Create obj s := (none, s ++ [{ obj with Id := "pg-" ++ obj.Name }])
  Get id s :=
    match s.find? fun o => o.Id == id with
    | some o => (.ok o, s)
    | none => (.error .InvalidPermissionGroupIdError, s)
  Update obj s :=
    if s.any fun o => o.Id == obj.Id then
      (none, s.map fun o => if o.Id == obj.Id then obj else o)
    else (some .ObjectNotFoundError, s)
  Delete id s :=
    if s.any fun o => o.Id == id then (none, s.filter fun o => o.Id != id)
    else (some .ObjectNotFoundError, s)
  Identify name s :=
    match s.find? fun o => o.Name == name with
    | some o => (.ok o.Id, s)
    | none => (.error (.other "permission group not found by name"), s)
  Names s := (.ok [], s)

/-- A stateless remote that accepts every write, resolves every name to `pg-1`,
answers every Get and Delete with the error `getErr`, and lists `accounts`. -/
def stubClient (getErr : Error) (accounts : List AccountSummary) : Client Unit where
  Create _ s := (none, s)
  Get _ s := (.error getErr, s)
  Update _ s := (none, s)
  Delete _ s := (some getErr, s)
  Identify _ s := (.ok "pg-1", s)
  Names s := (.ok accounts, s)

/-- The desired state of the example scenario: group `grp1` of type `CUSTOM`
that accepts account groups, with one feature grant. -/
def desiredGrp1 : PGData :=
  { id := ""
    attrs :=
      [ ("name", .str "grp1"),
        ("description", .str "first group"),
        ("permission_group_type", .str "CUSTOM"),
        ("accept_account_groups", .bool true),
        ("features",
          .list
            [ .map
                [ ("feature_name", .str "alerts"),
                  ("operations",
                    .list
                      [ .map
                          [ ("create", .bool true), ("read", .bool true),
                            ("update", .bool false), ("delete", .bool false) ] ]) ] ]) ] }

/-- The entity the remote holds for `grp1`. -/
def remoteGrp1 : PermissionGroup :=
  { Id := "pg-grp1"
    Name := "grp1"
    Description := "first group"
    Type_ := "CUSTOM"
    AcceptAccountGroups := true
    Features :=
      [ { FeatureName := "alerts"
          Operations := { CREATE := true, READ := true, UPDATE := false, DELETE := false } } ] }

/-- The current state of `grp1` with a new description as the only change. -/
def updatedGrp1 : PGData :=
  { id := "pg-grp1", attrs := ("description", .str "second description") :: desiredGrp1.attrs }

/-- A desired state whose only feature grant names `create` and none of `read`,
`update` and `delete`. -/
def partialOpsGrp : PGData :=
  { id := ""
    attrs :=
      [ ("name", .str "grp2"),
        ("features",
          .list
            [ .map
                [ ("feature_name", .str "alerts"),
                  ("operations", .list [ .map [ ("create", .bool true) ] ]) ] ]) ] }

/-- A desired state whose only feature grant has no `feature_name`. -/
def namelessGrp : PGData :=
  { id := ""
    attrs :=
      [ ("name", .str "grp3"),
        ("features",
          .list [ .map [ ("operations", .list [ .map [ ("create", .bool true) ] ]) ] ]) ] }

/-- A desired state whose only feature grant has no `operations`. -/
def noOperationsGrp : PGData :=
  { id := ""
    attrs :=
      [ ("name", .str "grp4"),
        ("features", .list [ .map [ ("feature_name", .str "alerts") ] ]) ] }

/-! ## Shapes of `features` elements -/

/-- Whether a `features` element, as set, has no entry in `operations`: the key
is missing or its list is empty. -/
def lacksOperations : Value → Bool
  | .map kv =>
    match assocLookup "operations" kv with
    | some (.list (_ :: _)) => false
    | _ => true
  | _ => true

/-- How the feature `f` relates to the element `fe` it was translated from: the
name and the four flags are the ones set in the element and in the first entry
of its `operations`, and whatever is not set there has its zero value. -/
def defaultsFilled (fe : Value) (f : Features) : Prop :=
  f.FeatureName = stringOf (assocLookup "feature_name" fe.fields) ∧
  (assocLookup "feature_name" fe.fields = none → f.FeatureName = "") ∧
  ∀ (x : Value) (rest : List Value),
    assocLookup "operations" fe.fields = some (.list (x :: rest)) →
    f.Operations =
      { CREATE := boolOf (assocLookup "create" x.fields)
        READ := boolOf (assocLookup "read" x.fields)
        UPDATE := boolOf (assocLookup "update" x.fields)
        DELETE := boolOf (assocLookup "delete" x.fields) } ∧
    (assocLookup "create" x.fields = none → f.Operations.CREATE = false) ∧
    (assocLookup "read" x.fields = none → f.Operations.READ = false) ∧
    (assocLookup "update" x.fields = none → f.Operations.UPDATE = false) ∧
    (assocLookup "delete" x.fields = none → f.Operations.DELETE = false)

/-! ## Basic facts -/

theorem FromErr_hasError (err : Error) : HasError (FromErr err) = true := by
  simp [FromErr, HasError]

theorem FromErr_ne_nil (err : Error) : FromErr err ≠ [] := by
  simp [FromErr]

theorem nil_not_hasError : HasError [] = false := rfl

theorem Set_id {sch : Schema} (d : ResourceData sch) (key : String) (v : Value) :
    (d.Set key v).Id = d.Id := by
  unfold ResourceData.Set
  split
  · split <;> rfl
  · rfl

theorem savePermissionGroup_id (d : PGData) (obj : PermissionGroup) :
    (savePermissionGroup d obj).Id = d.Id := by
  simp only [savePermissionGroup, Set_id]

theorem PollApiUntilSuccess_first {σ : Type} (probe : σ → Option Error × σ) (n : Nat)
    (s s' : σ) (h : probe s = (none, s')) : PollApiUntilSuccess probe n s = (none, s') := by
  cases n with
  | zero => simpa [PollApiUntilSuccess] using h
  | succ k => simp [PollApiUntilSuccess, h]

theorem readPermissionGroup_error {σ : Type} (client : Client σ) (d : PGData) (s s' : σ)
    (err : Error) (h : client.Get d.Id s = (.error err, s')) :
    readPermissionGroup client d s =
      if err = Error.InvalidPermissionGroupIdError then
        { diags := [], d := d.SetId "", remote := s' }
      else { diags := FromErr err, d := d, remote := s' } := by
  simp only [readPermissionGroup, h]

theorem readPermissionGroup_ok {σ : Type} (client : Client σ) (d : PGData) (s s' : σ)
    (obj : PermissionGroup) (h : client.Get d.Id s = (.ok obj, s')) :
    readPermissionGroup client d s =
      { diags := [], d := savePermissionGroup d obj, remote := s' } := by
  simp only [readPermissionGroup, h]

/-- A fatal Read leaves the identifier as it was. -/
theorem readPermissionGroup_fatal_id {σ : Type} (client : Client σ) (d : PGData) (s : σ)
    (h : HasError (readPermissionGroup client d s).diags = true) :
    (readPermissionGroup client d s).d.Id = d.Id := by
  rcases hg : client.Get d.Id s with ⟨r, s'⟩
  cases r with
  | error err =>
    rw [readPermissionGroup_error client d s s' err hg] at h ⊢
    by_cases he : err = Error.InvalidPermissionGroupIdError
    · simp [he, nil_not_hasError] at h
    · simp [he]
  | ok obj =>
    rw [readPermissionGroup_ok client d s s' obj hg] at h
    simp [nil_not_hasError] at h

/-! ## Read -/

/-- C1: when the remote Get fails with the invalid-permission-group-id error,
Read empties the identifier and returns no diagnostics; when it fails with any
other error, Read returns the fatal diagnostic of that error and the identifier
is the one it was before the call. -/
theorem readPermissionGroup_get_failure {σ : Type} (client : Client σ) (d : PGData)
    (s s' : σ) (err : Error) (hGet : client.Get d.Id s = (.error err, s')) :
    (err = Error.InvalidPermissionGroupIdError →
      (readPermissionGroup client d s).diags = [] ∧
      (readPermissionGroup client d s).d.Id = "") ∧
    (err ≠ Error.InvalidPermissionGroupIdError →
      (readPermissionGroup client d s).diags = FromErr err ∧
      HasError (readPermissionGroup client d s).diags = true ∧
      (readPermissionGroup client d s).d.Id = d.Id) := by
  rw [readPermissionGroup_error client d s s' err hGet]
  constructor
  · intro he
    simp [he, ResourceData.SetId, ResourceData.Id]
  · intro he
    simp [he, FromErr_hasError]

/-- An instance for each of the two errors, on a state bound to `pg-1`. -/
theorem readPermissionGroup_get_failure_witness :
    (readPermissionGroup (stubClient (.other "backend unavailable") [])
        { desiredGrp1 with id := "pg-1" } ()).diags
      = FromErr (.other "backend unavailable") ∧
    (readPermissionGroup (stubClient (.other "backend unavailable") [])
        { desiredGrp1 with id := "pg-1" } ()).d.Id = "pg-1" ∧
    (readPermissionGroup (stubClient .InvalidPermissionGroupIdError [])
        { desiredGrp1 with id := "pg-1" } ()).diags = [] ∧
    (readPermissionGroup (stubClient .InvalidPermissionGroupIdError [])
        { desiredGrp1 with id := "pg-1" } ()).d.Id = "" :=
  have a := (readPermissionGroup_get_failure (stubClient (.other "backend unavailable") [])
    { desiredGrp1 with id := "pg-1" } () () (.other "backend unavailable") rfl).2 (by decide)
  have b := (readPermissionGroup_get_failure (stubClient .InvalidPermissionGroupIdError [])
    { desiredGrp1 with id := "pg-1" } () () .InvalidPermissionGroupIdError rfl).1 rfl
  ⟨a.1, a.2.2, b.1, b.2⟩

/-! ## Delete -/

theorem deletePermissionGroup_eq {σ : Type} (client : Client σ) (d : PGData) (s s' : σ)
    (r : Option Error) (h : client.Delete d.Id s = (r, s')) :
    deletePermissionGroup client d s =
      match r with
      | some err =>
        if err ≠ Error.ObjectNotFoundError then { diags := FromErr err, d := d, remote := s' }
        else { diags := [], d := d.SetId "", remote := s' }
      | none => { diags := [], d := d.SetId "", remote := s' } := by
  simp only [deletePermissionGroup, h]
  cases r <;> rfl

theorem deletePermissionGroup_success_iff {σ : Type} (client : Client σ) (d : PGData) (s : σ) :
    ((deletePermissionGroup client d s).diags = [] ∧
        (deletePermissionGroup client d s).d.Id = "") ↔
      ((client.Delete d.Id s).1 = none ∨
        (client.Delete d.Id s).1 = some Error.ObjectNotFoundError) := by
  rcases hd : client.Delete d.Id s with ⟨r, s'⟩
  rw [deletePermissionGroup_eq client d s s' r hd]
  cases r with
  | none => simp [ResourceData.SetId, ResourceData.Id]
  | some err =>
    by_cases he : err = Error.ObjectNotFoundError
    · simp [he, ResourceData.SetId, ResourceData.Id]
    · simp [he, FromErr_ne_nil]

/-- A fatal Delete leaves the identifier as it was. -/
theorem deletePermissionGroup_fatal_id {σ : Type} (client : Client σ) (d : PGData) (s : σ)
    (h : HasError (deletePermissionGroup client d s).diags = true) :
    (deletePermissionGroup client d s).d.Id = d.Id := by
  rcases hd : client.Delete d.Id s with ⟨r, s'⟩
  rw [deletePermissionGroup_eq client d s s' r hd] at h ⊢
  cases r with
  | none => simp [nil_not_hasError] at h
  | some err =>
    by_cases he : err = Error.ObjectNotFoundError
    · simp [he, nil_not_hasError] at h
    · simp [he]

/-- C2: Delete returns no diagnostics and leaves the identifier empty exactly
when the remote Delete returns nil or the object-not-found error; hence, when the
first remote Delete returns nil or object-not-found and the remote reports
object-not-found for the then absent entity, two Deletes on the same identifier
both succeed and the binding is cleared after either. -/
theorem deletePermissionGroup_idempotent {σ : Type} (client : Client σ) (d d2 : PGData)
    (s : σ) (hSame : d2.Id = d.Id) :
    (((deletePermissionGroup client d s).diags = [] ∧
        (deletePermissionGroup client d s).d.Id = "") ↔
      ((client.Delete d.Id s).1 = none ∨
        (client.Delete d.Id s).1 = some Error.ObjectNotFoundError)) ∧
    (((client.Delete d.Id s).1 = none ∨
        (client.Delete d.Id s).1 = some Error.ObjectNotFoundError) →
      (client.Delete d.Id (deletePermissionGroup client d s).remote).1
        = some Error.ObjectNotFoundError →
      (deletePermissionGroup client d s).diags = [] ∧
      (deletePermissionGroup client d s).d.Id = "" ∧
      (deletePermissionGroup client d2 (deletePermissionGroup client d s).remote).diags = [] ∧
      (deletePermissionGroup client d2 (deletePermissionGroup client d s).remote).d.Id = "") := by
  refine ⟨deletePermissionGroup_success_iff client d s, ?_⟩
  intro h1 h2
  have a := (deletePermissionGroup_success_iff client d s).2 h1
  have b := (deletePermissionGroup_success_iff client d2
    (deletePermissionGroup client d s).remote).2 (Or.inr (by rw [hSame]; exact h2))
  exact ⟨a.1, a.2, b.1, b.2⟩

/-- An instance: the in-memory remote holding `grp1`, deleted twice. -/
theorem deletePermissionGroup_idempotent_witness :
    (deletePermissionGroup memClient { desiredGrp1 with id := "pg-grp1" } [remoteGrp1]).diags = [] ∧
    (deletePermissionGroup memClient { desiredGrp1 with id := "pg-grp1" } [remoteGrp1]).d.Id = "" ∧
    (deletePermissionGroup memClient { desiredGrp1 with id := "pg-grp1" }
      (deletePermissionGroup memClient { desiredGrp1 with id := "pg-grp1" }
        [remoteGrp1]).remote).diags = [] ∧
    (deletePermissionGroup memClient { desiredGrp1 with id := "pg-grp1" }
      (deletePermissionGroup memClient { desiredGrp1 with id := "pg-grp1" }
        [remoteGrp1]).remote).d.Id = "" :=
  (deletePermissionGroup_idempotent memClient { desiredGrp1 with id := "pg-grp1" }
    { desiredGrp1 with id := "pg-grp1" } [remoteGrp1] rfl).2 (Or.inl rfl) rfl

/-! ## Create with immediate visibility -/

/-- C3: when the desired state translates to an entity, the remote Create
succeeds, the name lookup answers at once (first for the poll, then with the
identifier `id`) and Get on `id` returns an entity at once (for the poll and for
the closing Read), Create returns no diagnostics, the binding is `id`, and the
outcome is exactly that of Read on the data bound to `id`. -/
theorem createPermissionGroup_immediate {σ : Type} (maxRetries : Nat) (client : Client σ)
    (d : PGData) (obj ent0 ent : PermissionGroup) (id0 id : String) (s s1 s2 s3 s4 s5 : σ)
    (hParse : parsePermissionGroup d = .ok obj)
    (hCreate : client.Create obj s = (none, s1))
    (hPollName : client.Identify obj.Name s1 = (.ok id0, s2))
    (hIdentify : client.Identify obj.Name s2 = (.ok id, s3))
    (hPollGet : client.Get id s3 = (.ok ent0, s4))
    (hGet : client.Get id s4 = (.ok ent, s5)) :
    ∃ out, createPermissionGroup maxRetries client d s = .ok out ∧
      out.diags = [] ∧ out.d.Id = id ∧
      out = readPermissionGroup client (d.SetId id) s4 ∧
      out.d = savePermissionGroup (d.SetId id) ent := by
  have p1 : PollApiUntilSuccess (identifyProbe client obj.Name) maxRetries s1 = (none, s2) :=
    PollApiUntilSuccess_first _ maxRetries s1 s2 (by simp [identifyProbe, hPollName, errOf])
  have p2 : PollApiUntilSuccess (getProbe client id) maxRetries s3 = (none, s4) :=
    PollApiUntilSuccess_first _ maxRetries s3 s4 (by simp [getProbe, hPollGet, errOf])
  have hr := readPermissionGroup_ok client (d.SetId id) s4 s5 ent hGet
  refine ⟨readPermissionGroup client (d.SetId id) s4, ?_, ?_, ?_, rfl, ?_⟩
  · simp only [createPermissionGroup, hParse, hCreate, p1, hIdentify, p2]
  · rw [hr]
  · rw [hr]
    exact savePermissionGroup_id (d.SetId id) ent
  · rw [hr]

/-- An instance: `grp1` created on the empty in-memory remote. -/
theorem createPermissionGroup_immediate_witness :
    ∃ out, createPermissionGroup 5 memClient desiredGrp1 [] = .ok out ∧
      out.diags = [] ∧ out.d.Id = "pg-grp1" ∧
      out = readPermissionGroup memClient (desiredGrp1.SetId "pg-grp1")
        [{ Id := "pg-grp1", Name := "grp1", Description := "first group",
           Features := remoteGrp1.Features }] ∧
      out.d = savePermissionGroup (desiredGrp1.SetId "pg-grp1")
        { Id := "pg-grp1", Name := "grp1", Description := "first group",
          Features := remoteGrp1.Features } :=
  createPermissionGroup_immediate 5 memClient desiredGrp1
    { Name := "grp1", Description := "first group", Features := remoteGrp1.Features }
    { Id := "pg-grp1", Name := "grp1", Description := "first group",
      Features := remoteGrp1.Features }
    { Id := "pg-grp1", Name := "grp1", Description := "first group",
      Features := remoteGrp1.Features }
    "pg-grp1" "pg-grp1" [] _ _ _ _ _ rfl rfl rfl rfl rfl rfl

/-! ## Create after an exhausted poll -/

/-- C4, as stated, fails: against a remote whose Get keeps answering with the
invalid-permission-group-id error, the remote Create succeeds, the poll of Get
runs out of retries with the probe still failing, and Create returns no
diagnostics at all. -/
theorem createPermissionGroup_exhausted_poll_success :
    parsePermissionGroup desiredGrp1
      = .ok { Name := "grp1", Description := "first group", Features := remoteGrp1.Features } ∧
    ((stubClient .InvalidPermissionGroupIdError []).Create
      { Name := "grp1", Description := "first group", Features := remoteGrp1.Features } ()).1
      = none ∧
    (PollApiUntilSuccess (getProbe (stubClient .InvalidPermissionGroupIdError []) "pg-1") 3 ()).1
      = some .InvalidPermissionGroupIdError ∧
    ∃ out, createPermissionGroup 3 (stubClient .InvalidPermissionGroupIdError []) desiredGrp1 ()
        = .ok out ∧
      out.diags = [] ∧ HasError out.diags = false :=
  ⟨rfl, rfl, rfl, _, rfl, rfl, rfl⟩

/-- C4, amended: let the remote Create succeed. If the name poll runs out of
retries and the Identify that follows still fails, Create returns the fatal
diagnostic of that Identify error. If the identifier is resolved, the poll of
Get runs out of retries and the Get of the closing Read still fails, Create
returns the fatal diagnostic of that Get error, except for the
invalid-permission-group-id error, on which it returns no diagnostics and
clears the binding. -/
theorem createPermissionGroup_exhausted_poll {σ : Type} (maxRetries : Nat) (client : Client σ)
    (d : PGData) (obj : PermissionGroup) (s s1 : σ)
    (hParse : parsePermissionGroup d = .ok obj)
    (hCreate : client.Create obj s = (none, s1)) :
    (∀ (e err : Error) (s2 s3 : σ),
      PollApiUntilSuccess (identifyProbe client obj.Name) maxRetries s1 = (some e, s2) →
      client.Identify obj.Name s2 = (.error err, s3) →
      ∃ out, createPermissionGroup maxRetries client d s = .ok out ∧
        out.diags = FromErr err ∧ HasError out.diags = true) ∧
    (∀ (id : String) (e err : Error) (s3 s4 s5 : σ),
      client.Identify obj.Name
        (PollApiUntilSuccess (identifyProbe client obj.Name) maxRetries s1).2 = (.ok id, s3) →
      PollApiUntilSuccess (getProbe client id) maxRetries s3 = (some e, s4) →
      client.Get id s4 = (.error err, s5) →
      ∃ out, createPermissionGroup maxRetries client d s = .ok out ∧
        (err ≠ Error.InvalidPermissionGroupIdError →
          out.diags = FromErr err ∧ HasError out.diags = true) ∧
        (err = Error.InvalidPermissionGroupIdError → out.diags = [] ∧ out.d.Id = "")) := by
  constructor
  · intro e err s2 s3 hPoll hIdent
    refine ⟨{ diags := FromErr err, d := d, remote := s3 }, ?_, rfl, FromErr_hasError err⟩
    simp only [createPermissionGroup, hParse, hCreate, hPoll, hIdent]
  · intro id e err s3 s4 s5 hIdent hPoll hGet
    have hr := readPermissionGroup_error client (d.SetId id) s4 s5 err hGet
    refine ⟨readPermissionGroup client (d.SetId id) s4, ?_, ?_, ?_⟩
    · simp only [createPermissionGroup, hParse, hCreate, hIdent, hPoll]
    · intro he
      rw [hr]
      simp [he, FromErr_hasError]
    · intro he
      rw [hr]
      simp [he, ResourceData.SetId, ResourceData.Id]

/-- An instance: a remote that resolves the name and fails every Get with a
backend error. -/
theorem createPermissionGroup_exhausted_poll_witness :
    ∃ out, createPermissionGroup 3 (stubClient (.other "backend unavailable") []) desiredGrp1 ()
        = .ok out ∧
      out.diags = FromErr (.other "backend unavailable") ∧ HasError out.diags = true :=
  match (createPermissionGroup_exhausted_poll 3 (stubClient (.other "backend unavailable") [])
    desiredGrp1 { Name := "grp1", Description := "first group", Features := remoteGrp1.Features }
    () () rfl rfl).2 "pg-1" (.other "backend unavailable") (.other "backend unavailable")
    () () () rfl rfl rfl with
  | ⟨out, h, hne, _⟩ => ⟨out, h, hne (by decide)⟩

/-! ## Fatal outcomes and the binding -/

/-- C8, as stated, fails for Create: against a remote that resolves the name to
`pg-1` and then fails every Get with a backend error, Create returns a fatal
diagnostic and the binding, empty before the call, is `pg-1` after it. -/
theorem createPermissionGroup_fatal_changes_binding :
    desiredGrp1.Id = "" ∧
    ∃ out, createPermissionGroup 3 (stubClient (.other "backend unavailable") []) desiredGrp1 ()
        = .ok out ∧
      HasError out.diags = true ∧ out.d.Id = "pg-1" ∧ out.d.Id ≠ desiredGrp1.Id :=
  ⟨rfl, _, rfl, rfl, rfl, by decide⟩

/-- C8, amended: a fatal Read, a fatal Update and a fatal Delete leave the
binding as it was before the call. A fatal Create leaves the binding as it was
when the remote Create fails and when the name lookup after the first poll
fails; when the name lookup resolves an identifier, so that the fatal diagnostic
comes from the closing Read, the binding after the call is that identifier. -/
theorem fatal_outcome_binding {σ : Type} (maxRetries : Nat) (client : Client σ) (d : PGData)
    (s : σ) :
    (HasError (readPermissionGroup client d s).diags = true →
      (readPermissionGroup client d s).d.Id = d.Id) ∧
    (∀ out, updatePermissionGroup client d s = .ok out →
      HasError out.diags = true → out.d.Id = d.Id) ∧
    (HasError (deletePermissionGroup client d s).diags = true →
      (deletePermissionGroup client d s).d.Id = d.Id) ∧
    (∀ (out : Outcome σ) (obj : PermissionGroup) (err : Error) (s1 : σ),
      createPermissionGroup maxRetries client d s = .ok out → HasError out.diags = true →
      parsePermissionGroup d = .ok obj → client.Create obj s = (some err, s1) →
      out.d.Id = d.Id ∧ out.diags = FromErr err) ∧
    (∀ (out : Outcome σ) (obj : PermissionGroup) (err : Error) (s1 s3 : σ),
      createPermissionGroup maxRetries client d s = .ok out → HasError out.diags = true →
      parsePermissionGroup d = .ok obj → client.Create obj s = (none, s1) →
      client.Identify obj.Name
        (PollApiUntilSuccess (identifyProbe client obj.Name) maxRetries s1).2
        = (.error err, s3) →
      out.d.Id = d.Id ∧ out.diags = FromErr err) ∧
    (∀ (out : Outcome σ) (obj : PermissionGroup) (id : String) (s1 s3 : σ),
      createPermissionGroup maxRetries client d s = .ok out → HasError out.diags = true →
      parsePermissionGroup d = .ok obj → client.Create obj s = (none, s1) →
      client.Identify obj.Name
        (PollApiUntilSuccess (identifyProbe client obj.Name) maxRetries s1).2
        = (.ok id, s3) →
      out.d.Id = id ∧
      out = readPermissionGroup client (d.SetId id)
        (PollApiUntilSuccess (getProbe client id) maxRetries s3).2) := by
  refine ⟨readPermissionGroup_fatal_id client d s, ?_, deletePermissionGroup_fatal_id client d s,
    ?_, ?_, ?_⟩
  · intro out h hf
    unfold updatePermissionGroup at h
    cases hp : parsePermissionGroup d with
    | error p => simp [hp] at h
    | ok obj =>
      rcases hu : client.Update { obj with Id := d.Id } s with ⟨r, s1⟩
      cases r with
      | some err =>
        simp only [hp, hu] at h
        injection h with h
        rw [← h]
      | none =>
        simp only [hp, hu] at h
        injection h with h
        subst h
        exact readPermissionGroup_fatal_id client d s1 hf
  · intro out obj err s1 h _ hp hc
    simp only [createPermissionGroup, hp, hc] at h
    injection h with h
    subst h
    exact ⟨rfl, rfl⟩
  · intro out obj err s1 s3 h _ hp hc hi
    simp only [createPermissionGroup, hp, hc, hi] at h
    injection h with h
    subst h
    exact ⟨rfl, rfl⟩
  · intro out obj id s1 s3 h hf hp hc hi
    simp only [createPermissionGroup, hp, hc, hi] at h
    injection h with h
    subst h
    exact ⟨readPermissionGroup_fatal_id client (d.SetId id) _ hf, rfl⟩

/-- An instance of the Delete, Read and Create parts, against a remote that
resolves the name to `pg-1` and fails every Get and Delete with a backend
error: Delete and Read keep the binding `pg-1`, and Create, started with no
binding, ends fatally with the binding `pg-1`. -/
theorem fatal_outcome_binding_witness :
    (deletePermissionGroup (stubClient (.other "backend unavailable") [])
      { desiredGrp1 with id := "pg-1" } ()).d.Id = "pg-1" ∧
    (readPermissionGroup (stubClient (.other "backend unavailable") [])
      { desiredGrp1 with id := "pg-1" } ()).d.Id = "pg-1" ∧
    desiredGrp1.Id = "" ∧
    createPermissionGroup 3 (stubClient (.other "backend unavailable") []) desiredGrp1 ()
      = .ok (readPermissionGroup (stubClient (.other "backend unavailable") [])
          (desiredGrp1.SetId "pg-1") ()) ∧
    HasError (readPermissionGroup (stubClient (.other "backend unavailable") [])
      (desiredGrp1.SetId "pg-1") ()).diags = true ∧
    (readPermissionGroup (stubClient (.other "backend unavailable") [])
      (desiredGrp1.SetId "pg-1") ()).d.Id = "pg-1" :=
  ⟨(fatal_outcome_binding 3 (stubClient (.other "backend unavailable") [])
      { desiredGrp1 with id := "pg-1" } ()).2.2.1 rfl,
    (fatal_outcome_binding 3 (stubClient (.other "backend unavailable") [])
      { desiredGrp1 with id := "pg-1" } ()).1 rfl,
    rfl, rfl, rfl,
    ((fatal_outcome_binding 3 (stubClient (.other "backend unavailable") [])
      desiredGrp1 ()).2.2.2.2.2
      (readPermissionGroup (stubClient (.other "backend unavailable") [])
        (desiredGrp1.SetId "pg-1") ())
      { Name := "grp1", Description := "first group", Features := remoteGrp1.Features }
      "pg-1" () () rfl rfl rfl rfl rfl).1⟩

/-! ## The translator pair -/

theorem str_ne_str {a b : Value} {x y : String} (ha : a = .str x) (hb : b = .str y)
    (h : x ≠ y) : a ≠ b := by
  subst ha hb
  intro hab
  exact h (Value.str.inj hab)

theorem Get_Set_ne {sch : Schema} (d : ResourceData sch) (key key' : String) (v : Value)
    (h : key' ≠ key) : (d.Set key' v).Get key = d.Get key := by
  unfold ResourceData.Set
  split
  · split
    · simp [ResourceData.Get, assocLookup, h]
    · rfl
  · rfl

theorem Get_Set_eq {sch : Schema} (d : ResourceData sch) (key : String) (v : Value)
    (t : ValueType) (ht : sch.typeOf key = some t) (hv : t.accepts v = true) :
    (d.Set key v).Get key = t.read (some v) := by
  simp [ResourceData.Set, ht, hv, ResourceData.Get, assocLookup]

/-- The entity-to-state translation never writes `features`: the attribute keeps
the value it had in the data before the call. -/
theorem savePermissionGroup_features (d : PGData) (obj : PermissionGroup) :
    (savePermissionGroup d obj).Get "features" = d.Get "features" := by
  simp only [savePermissionGroup]
  repeat rw [Get_Set_ne _ _ _ _ (by decide)]

/-- After the entity-to-state translation, `name`, `description` and
`permission_group_type` hold the entity's name, description and type. -/
theorem savePermissionGroup_scalars (d : PGData) (obj : PermissionGroup) :
    (savePermissionGroup d obj).Get "name" = .str obj.Name ∧
    (savePermissionGroup d obj).Get "description" = .str obj.Description ∧
    (savePermissionGroup d obj).Get "permission_group_type" = .str obj.Type_ := by
  simp only [savePermissionGroup]
  refine ⟨?_, ?_, ?_⟩
  · repeat rw [Get_Set_ne _ _ _ _ (by decide)]
    exact Get_Set_eq _ _ _ (.prim .TypeString) rfl rfl
  · repeat rw [Get_Set_ne _ _ _ _ (by decide)]
    exact Get_Set_eq _ _ _ (.prim .TypeString) rfl rfl
  · repeat rw [Get_Set_ne _ _ _ _ (by decide)]
    exact Get_Set_eq _ _ _ (.prim .TypeString) rfl rfl

/-- The state-to-entity translation reads `name`, `description` and `features`
only: every other field of the entity it returns has its zero value. -/
theorem parsePermissionGroup_fields (d : PGData) (obj : PermissionGroup)
    (h : parsePermissionGroup d = .ok obj) :
    d.Get "name" = .str obj.Name ∧ d.Get "description" = .str obj.Description ∧
    obj.Id = "" ∧ obj.Type_ = "" ∧ obj.AcceptAccountGroups = false ∧
    obj.AcceptResourceLists = false ∧ obj.AcceptCodeRepositories = false ∧
    obj.Custom = false := by
  unfold parsePermissionGroup at h
  cases hn : d.Get "name" <;> simp [hn, Value.assertString, bind, Except.bind] at h
  cases hd : d.Get "description" <;> simp [hd, Value.assertString] at h
  cases hf : d.Get "features" <;> simp [hf, Value.assertList] at h
  cases hp : parseFeatures ‹_› <;> simp [hp, pure, Except.pure] at h
  subst h
  simp

/-- C5, on the code: an imported state holds only the identifier `pg-grp1`; the
remote holds `grp1` with the feature grant `alerts`. Read succeeds and fills in
the name, and `features` is still the empty list, not the list of records built
from the entity's features. -/
theorem readPermissionGroup_import_features :
    (readPermissionGroup memClient { id := "pg-grp1", attrs := [] } [remoteGrp1]).diags = [] ∧
    (readPermissionGroup memClient { id := "pg-grp1", attrs := [] } [remoteGrp1]).d.Get "name"
      = .str "grp1" ∧
    (readPermissionGroup memClient { id := "pg-grp1", attrs := [] } [remoteGrp1]).d.Get "features"
      = .list [] ∧
    featureRecords remoteGrp1.Features =
      [ .map
          [ ("feature_name", .str "alerts"),
            ("operations",
              .map [ ("create", .bool true), ("read", .bool true),
                     ("update", .bool false), ("delete", .bool false) ]) ] ] ∧
    (readPermissionGroup memClient { id := "pg-grp1", attrs := [] } [remoteGrp1]).d.Get "features"
      ≠ .list (featureRecords remoteGrp1.Features) := by
  refine ⟨rfl, rfl, rfl, rfl, ?_⟩
  have h : (readPermissionGroup memClient { id := "pg-grp1", attrs := [] }
      [remoteGrp1]).d.Get "features" = .list [] := rfl
  rw [h]
  simp [featureRecords, remoteGrp1]

/-- C6, on the code: for the desired state `grp1` the translation pair returns
`name` and `description`, and `permission_group_type` and
`accept_account_groups`, declared `CUSTOM` and true, come back as the empty
string and false. -/
theorem parse_save_drops_type :
    ∃ obj, parsePermissionGroup desiredGrp1 = .ok obj ∧
      (savePermissionGroup desiredGrp1 obj).Get "name" = desiredGrp1.Get "name" ∧
      (savePermissionGroup desiredGrp1 obj).Get "description" = desiredGrp1.Get "description" ∧
      desiredGrp1.Get "permission_group_type" = .str "CUSTOM" ∧
      (savePermissionGroup desiredGrp1 obj).Get "permission_group_type" = .str "" ∧
      desiredGrp1.Get "accept_account_groups" = .bool true ∧
      (savePermissionGroup desiredGrp1 obj).Get "accept_account_groups" = .bool false ∧
      (savePermissionGroup desiredGrp1 obj).Get "permission_group_type"
        ≠ desiredGrp1.Get "permission_group_type" := by
  exact ⟨_, rfl, rfl, rfl, rfl, rfl, rfl, rfl, str_ne_str rfl rfl (by decide)⟩

/-- C7, on the code: the remote holds `grp1` of type `CUSTOM`; the desired state
differs from the current one in `description` only. Update sends an entity that
carries the identifier `pg-grp1` and an empty type, and after the closing Read
the state shows the new description, the same name and features, and the empty
string for `permission_group_type`. -/
theorem updatePermissionGroup_description_only :
    updatedGrp1.Get "permission_group_type" = .str "CUSTOM" ∧
    ∃ out, updatePermissionGroup memClient updatedGrp1 [remoteGrp1] = .ok out ∧
      out.diags = [] ∧
      out.remote =
        [{ Id := "pg-grp1", Name := "grp1", Description := "second description",
           Features := remoteGrp1.Features }] ∧
      out.d.Get "description" = .str "second description" ∧
      out.d.Get "name" = updatedGrp1.Get "name" ∧
      out.d.Get "features" = updatedGrp1.Get "features" ∧
      out.d.Get "permission_group_type" = .str "" ∧
      out.d.Get "permission_group_type" ≠ updatedGrp1.Get "permission_group_type" := by
  exact ⟨rfl, _, rfl, rfl, rfl, rfl, rfl, rfl, rfl, str_ne_str rfl rfl (by decide)⟩

/-! ## Malformed feature elements -/

theorem mapstructure.Decode_flags (c r u dl : Bool) :
    mapstructure.Decode
      (.map [("create", .bool c), ("read", .bool r), ("update", .bool u), ("delete", .bool dl)])
      = .ok { CREATE := c, READ := r, UPDATE := u, DELETE := dl } := rfl

theorem featuresElem_readRecord (fe : Value) :
    featuresElem.readRecord fe =
      .map [ ("feature_name", .str (stringOf (assocLookup "feature_name" fe.fields))),
             ("operations",
               FieldType.read (.TypeList operationsElem) (assocLookup "operations" fe.fields)) ] :=
  rfl

theorem Get_features (d : PGData) (raw : List Value)
    (h : assocLookup "features" d.attrs = some (.list raw)) :
    d.Get "features" = .list (raw.map featuresElem.readRecord) := by
  have : d.Get "features"
      = ValueType.read (.TypeList featuresElem) (assocLookup "features" d.attrs) := rfl
  rw [this, h]
  rfl

theorem parseFeature_lacksOperations (fe : Value) (h : lacksOperations fe = true) :
    ∃ p, parseFeature (featuresElem.readRecord fe) = .error p := by
  have hops : FieldType.read (.TypeList operationsElem) (assocLookup "operations" fe.fields)
      = .list [] := by
    cases fe with
    | map kv =>
      cases ho : assocLookup "operations" kv with
      | none => simp [Value.fields, ho, FieldType.read]
      | some v =>
        cases v with
        | list xs =>
          cases xs with
          | nil => simp [Value.fields, ho, FieldType.read]
          | cons x rest => simp [lacksOperations, ho] at h
        | nil => simp [Value.fields, ho, FieldType.read]
        | str _ => simp [Value.fields, ho, FieldType.read]
        | int _ => simp [Value.fields, ho, FieldType.read]
        | bool _ => simp [Value.fields, ho, FieldType.read]
        | map _ => simp [Value.fields, ho, FieldType.read]
    | nil => rfl
    | str _ => rfl
    | int _ => rfl
    | bool _ => rfl
    | list _ => rfl
  rw [featuresElem_readRecord, hops]
  exact ⟨_, rfl⟩

theorem parseFeature_hasOperations (fe : Value) (h : lacksOperations fe = false) :
    ∃ f, parseFeature (featuresElem.readRecord fe) = .ok f ∧ defaultsFilled fe f := by
  cases fe with
  | map kv =>
    cases ho : assocLookup "operations" kv with
    | none => simp [lacksOperations, ho] at h
    | some v =>
      cases v with
      | list xs =>
        cases xs with
        | nil => simp [lacksOperations, ho] at h
        | cons x rest =>
          refine ⟨{ FeatureName := stringOf (assocLookup "feature_name" kv)
                    Operations :=
                      { CREATE := boolOf (assocLookup "create" x.fields)
                        READ := boolOf (assocLookup "read" x.fields)
                        UPDATE := boolOf (assocLookup "update" x.fields)
                        DELETE := boolOf (assocLookup "delete" x.fields) } }, ?_, rfl, ?_, ?_⟩
          · rw [featuresElem_readRecord]
            simp only [Value.fields, ho, FieldType.read, List.map]
            rfl
          · intro hn
            simp only [Value.fields] at hn
            simp [hn, stringOf]
          · intro x' rest' hx
            simp only [Value.fields, ho] at hx
            injection hx with hx
            injection hx with hx
            injection hx with hx1 hx2
            subst hx1
            refine ⟨rfl, ?_, ?_, ?_, ?_⟩ <;> intro hk <;> simp [hk, boolOf]
      | nil => simp [lacksOperations, ho] at h
      | str _ => simp [lacksOperations, ho] at h
      | int _ => simp [lacksOperations, ho] at h
      | bool _ => simp [lacksOperations, ho] at h
      | map _ => simp [lacksOperations, ho] at h
  | nil => simp [lacksOperations] at h
  | str _ => simp [lacksOperations] at h
  | int _ => simp [lacksOperations] at h
  | bool _ => simp [lacksOperations] at h
  | list _ => simp [lacksOperations] at h

theorem parseFeatures_lacksOperations (raw : List Value) (fe : Value) (hMem : fe ∈ raw)
    (h : lacksOperations fe = true) :
    ∃ p, parseFeatures (raw.map featuresElem.readRecord) = .error p := by
  induction raw with
  | nil => simp at hMem
  | cons x rest ih =>
    simp only [List.map, parseFeatures]
    cases hx : parseFeature (featuresElem.readRecord x) with
    | error e => exact ⟨e, rfl⟩
    | ok f =>
      rcases List.mem_cons.1 hMem with hEq | hIn
      · obtain ⟨p, hp⟩ := parseFeature_lacksOperations fe h
        rw [hEq, hx] at hp
        cases hp
      · obtain ⟨p, hp⟩ := ih hIn
        simp only [hp]
        exact ⟨p, rfl⟩

theorem parseFeatures_hasOperations (raw : List Value)
    (h : ∀ fe ∈ raw, lacksOperations fe = false) :
    ∃ fs, parseFeatures (raw.map featuresElem.readRecord) = .ok fs ∧
      List.Forall₂ defaultsFilled raw fs := by
  induction raw with
  | nil => exact ⟨[], rfl, List.Forall₂.nil⟩
  | cons x rest ih =>
    obtain ⟨f, hf, hm⟩ := parseFeature_hasOperations x (h x (List.mem_cons_self x rest))
    obtain ⟨fs, hfs, hall⟩ := ih (fun fe hfe => h fe (List.mem_cons_of_mem x hfe))
    refine ⟨f :: fs, ?_, List.Forall₂.cons hm hall⟩
    simp [parseFeatures, hf, hfs]

theorem parsePermissionGroup_eq (d : PGData) (raw : List Value)
    (h : assocLookup "features" d.attrs = some (.list raw)) :
    parsePermissionGroup d =
      match parseFeatures (raw.map featuresElem.readRecord) with
      | .error p => .error p
      | .ok fs =>
        .ok { Name := stringOf (assocLookup "name" d.attrs)
              Description := stringOf (assocLookup "description" d.attrs)
              Features := fs } := by
  have hn : d.Get "name" = .str (stringOf (assocLookup "name" d.attrs)) := rfl
  have hd : d.Get "description" = .str (stringOf (assocLookup "description" d.attrs)) := rfl
  simp only [parsePermissionGroup, hn, hd, Get_features d raw h, Value.assertString,
    Value.assertList, bind, Except.bind, pure, Except.pure]
  cases parseFeatures (raw.map featuresElem.readRecord) <;> rfl

/-- C9, as stated, fails: a feature without `feature_name` and a feature whose
operations record lacks `read`, `update` and `delete` do not make the
translation panic; it returns an entity with the empty name, and an entity in
which the three missing flags are false. -/
theorem parsePermissionGroup_partial_operations :
    parsePermissionGroup namelessGrp =
      .ok { Name := "grp3"
            Features :=
              [ { FeatureName := ""
                  Operations :=
                    { CREATE := true, READ := false, UPDATE := false, DELETE := false } } ] } ∧
    parsePermissionGroup partialOpsGrp =
      .ok { Name := "grp2"
            Features :=
              [ { FeatureName := "alerts"
                  Operations :=
                    { CREATE := true, READ := false, UPDATE := false, DELETE := false } } ] } :=
  ⟨rfl, rfl⟩

/-- C9, amended: a desired state whose `features` list contains an element
without `operations`, or with an empty `operations` list, makes the translation
panic. A desired state in which every element has an entry in `operations` is
translated, whether or not an element has a `feature_name` and whichever of the
create, read, update and delete flags its operations record lacks: the entity is
returned, feature by feature, with the values that are set and the zero value
(the empty name, false) for what is missing. -/
theorem parsePermissionGroup_malformed_feature :
    (∀ (d : PGData) (raw : List Value) (fe : Value),
      assocLookup "features" d.attrs = some (.list raw) → fe ∈ raw →
      lacksOperations fe = true →
      ∃ p, parsePermissionGroup d = .error p) ∧
    (∀ (d : PGData) (raw : List Value),
      assocLookup "features" d.attrs = some (.list raw) →
      (∀ fe ∈ raw, lacksOperations fe = false) →
      ∃ obj, parsePermissionGroup d = .ok obj ∧
        List.Forall₂ defaultsFilled raw obj.Features) := by
  constructor
  · intro d raw fe hF hMem hBad
    obtain ⟨p, hp⟩ := parseFeatures_lacksOperations raw fe hMem hBad
    rw [parsePermissionGroup_eq d raw hF, hp]
    exact ⟨p, rfl⟩
  · intro d raw hF hAll
    obtain ⟨fs, hfs, hall⟩ := parseFeatures_hasOperations raw hAll
    rw [parsePermissionGroup_eq d raw hF, hfs]
    exact ⟨_, rfl, hall⟩

/-- An instance of each half: the desired state whose feature has no
`operations`, and the one whose operations record names `create` only. -/
theorem parsePermissionGroup_malformed_feature_witness :
    (∃ p, parsePermissionGroup noOperationsGrp = .error p) ∧
    (∃ obj, parsePermissionGroup partialOpsGrp = .ok obj ∧
      List.Forall₂ defaultsFilled
        [ .map
            [ ("feature_name", .str "alerts"),
              ("operations", .list [ .map [ ("create", .bool true) ] ]) ] ]
        obj.Features) :=
  ⟨parsePermissionGroup_malformed_feature.1 noOperationsGrp
      [ .map [ ("feature_name", .str "alerts") ] ]
      (.map [ ("feature_name", .str "alerts") ])
      rfl (List.mem_singleton.2 rfl) rfl,
   parsePermissionGroup_malformed_feature.2 partialOpsGrp
      [ .map
          [ ("feature_name", .str "alerts"),
            ("operations", .list [ .map [ ("create", .bool true) ] ]) ] ]
      rfl (fun fe hfe => by rw [List.mem_singleton.1 hfe]; rfl)⟩

/-! ## The list accessor: statements -/

/-- C10: when `account.Names` returns the summaries `items`, the data-source read
returns no error and `accounts` holds a list as long as `items` whose i-th
record carries the name, cloud type and account id of the i-th summary; for no
summaries the list is empty. -/
theorem dataSourceCloudAccountsRead_accounts {σ : Type} (client : Client σ)
    (d : ResourceData dataSourceCloudAccounts) (s s' : σ) (items : List AccountSummary)
    (hNames : client.Names s = (.ok items, s')) :
    (dataSourceCloudAccountsRead client d s).err = none ∧
    ∃ list, (dataSourceCloudAccountsRead client d s).d.Get "accounts" = .list list ∧
      list.length = items.length ∧
      (∀ (i : Nat) (h : i < items.length),
        list[i]? = some (Value.map
          [ ("name", .str items[i].Name),
            ("cloud_type", .str items[i].CloudType),
            ("account_id", .str items[i].AccountId) ])) ∧
      (items = [] → list = []) := by
  have hout : dataSourceCloudAccountsRead client d s =
      { err := none
        d := (d.SetId "cloud_accounts").Set "accounts"
          (.list (items.map fun i =>
            Value.map
              [ ("name", .str i.Name),
                ("cloud_type", .str i.CloudType),
                ("account_id", .str i.AccountId) ]))
        remote := s' } := by
    simp only [dataSourceCloudAccountsRead, hNames]
  rw [hout]
  have hget := @Get_Set_eq dataSourceCloudAccounts (d.SetId "cloud_accounts") "accounts"
    (.list (items.map fun i =>
      Value.map
        [ ("name", .str i.Name),
          ("cloud_type", .str i.CloudType),
          ("account_id", .str i.AccountId) ]))
    (.TypeList accountsElem) rfl rfl
  have hread : ValueType.read (.TypeList accountsElem)
      (some (.list (items.map fun i =>
        Value.map
          [ ("name", .str i.Name),
            ("cloud_type", .str i.CloudType),
            ("account_id", .str i.AccountId) ])))
      = .list (items.map fun i =>
        Value.map
          [ ("name", .str i.Name),
            ("cloud_type", .str i.CloudType),
            ("account_id", .str i.AccountId) ]) := by
    simp only [ValueType.read, List.map_map]
    congr 1
  refine ⟨rfl, _, hget.trans hread, by simp, ?_, ?_⟩
  · intro i h
    simp [List.getElem?_map, List.getElem?_eq_getElem h]
  · intro h
    simp [h]

/-- An instance: a remote that lists two accounts. -/
theorem dataSourceCloudAccountsRead_accounts_witness :
    (dataSourceCloudAccountsRead
      (stubClient .ObjectNotFoundError
        [ { Name := "prod", CloudType := "aws", AccountId := "111" },
          { Name := "dev", CloudType := "gcp", AccountId := "222" } ])
      { id := "", attrs := [] } ()).err = none ∧
    ∃ list, (dataSourceCloudAccountsRead
      (stubClient .ObjectNotFoundError
        [ { Name := "prod", CloudType := "aws", AccountId := "111" },
          { Name := "dev", CloudType := "gcp", AccountId := "222" } ])
      { id := "", attrs := [] } ()).d.Get "accounts" = .list list ∧
      list.length = 2 ∧
      list[1]? = some (Value.map
        [ ("name", .str "dev"), ("cloud_type", .str "gcp"), ("account_id", .str "222") ]) :=
  have h := dataSourceCloudAccountsRead_accounts
    (stubClient .ObjectNotFoundError
      [ { Name := "prod", CloudType := "aws", AccountId := "111" },
        { Name := "dev", CloudType := "gcp", AccountId := "222" } ])
    { id := "", attrs := [] } () ()
    [ { Name := "prod", CloudType := "aws", AccountId := "111" },
      { Name := "dev", CloudType := "gcp", AccountId := "222" } ] rfl
  ⟨h.1, h.2.choose, h.2.choose_spec.1, h.2.choose_spec.2.1,
    h.2.choose_spec.2.2.1 1 (by decide)⟩

end prismacloud
